import Mathlib

set_option maxRecDepth 16384
set_option synthInstance.maxSize 512

attribute [local semireducible] Rat.add Rat.mul Rat.inv Rat.sub

/-!
Verification of the budgeting-app core pipeline (CSV ingestion, rule-based
categorization, deduplication, stats aggregation) against its specification.

The repository sources under scrutiny are a React/TypeScript frontend
(`src/frontend`, `src/unnamed/part_000` = `services/api.ts`,
`src/unnamed/part_001` = `components/FileUpload.tsx`).  The backend that
implements the core pipeline (format detection, row normalization,
deduplication, the category engine, the ingestion orchestrator and the stats
aggregator) is not part of the source tree; only its HTTP callers and type
declarations are.  Definitions for those components are therefore modelled
from the specification, as indicated in their doc comments.  Data shapes
(`Transaction`, `CategoryRule`, `Stats`, `TransactionFilters`) follow
`src/frontend/types/index.ts`.  Machine numbers (transaction amounts) are
embedded as exact rationals `ℚ`.
-/

namespace Budget

/-! ### Regular expressions

Modelled from the spec: rules carry a `regex_pattern` that "must compile
under case-insensitive matching" (§3) and is applied "case-insensitively
against `description`" (§4.3).  The concrete regex engine of the backend is
not in the source tree, so a core regex language is modelled here: literal
characters, the any-character dot, grouping, alternation, concatenation and
the `*`/`+`/`?` repetitions, matched by Brzozowski derivatives, with an
unanchored (substring-search) `test` semantics as in JavaScript
`RegExp.test`.  Anchors and character classes are outside the modelled core.
-/

/-- Abstract syntax of the modelled regex core. -/
inductive Rx where
  | emp : Rx
  | eps : Rx
  | lit : Char → Rx
  | dot : Rx
  | alt : Rx → Rx → Rx
  | cat : Rx → Rx → Rx
  | star : Rx → Rx
deriving DecidableEq

/-- Case-insensitive character comparison. -/
def cieq (a b : Char) : Bool := a.toLower == b.toLower

/-- Does the regex accept the empty string? -/
def nullable : Rx → Bool
  | .emp => false
  | .eps => true
  | .lit _ => false
  | .dot => false
  | .alt a b => nullable a || nullable b
  | .cat a b => nullable a && nullable b
  | .star _ => true

/-- Brzozowski derivative with respect to one input character,
case-insensitive at literals. -/
def derivRx : Rx → Char → Rx
  | .emp, _ => .emp
  | .eps, _ => .emp
  | .lit c, a => if cieq c a then .eps else .emp
  | .dot, _ => .eps
  | .alt r1 r2, a => .alt (derivRx r1 a) (derivRx r2 a)
  | .cat r1 r2, a =>
      if nullable r1 then .alt (.cat (derivRx r1 a) r2) (derivRx r2 a)
      else .cat (derivRx r1 a) r2
  | .star r, a => .cat (derivRx r a) (.star r)

/-- Does some prefix of the input match the regex? -/
def matchesPrefix : Rx → List Char → Bool
  | r, [] => nullable r
  | r, c :: rest => nullable r || matchesPrefix (derivRx r c) rest

/-- Unanchored search: does the regex match a substring of the input? -/
def searchRx (r : Rx) : List Char → Bool
  | [] => nullable r
  | c :: rest => matchesPrefix r (c :: rest) || searchRx r rest

/-- Postfix repetition operators applied to a just-parsed atom. -/
def repLoop : Rx → List Char → Rx × List Char
  | r, ('*' :: rest) => repLoop (.star r) rest
  | r, ('+' :: rest) => repLoop (.cat r (.star r)) rest
  | r, ('?' :: rest) => repLoop (.alt r .eps) rest
  | r, cs => (r, cs)

mutual

/-- Parse an alternation (`a|b|c`).  Fuel-bounded recursive descent. -/
def parseAlt : Nat → List Char → Option (Rx × List Char)
  | 0, _ => none
  | Nat.succ fuel, cs =>
    match parseSeq fuel cs with
    | none => none
    | some (r, ('|' :: rest2)) =>
      match parseAlt fuel rest2 with
      | none => none
      | some (r2, rest3) => some (.alt r r2, rest3)
    | some (r, rest) => some (r, rest)

/-- Parse a (possibly empty) concatenation of atoms. -/
def parseSeq : Nat → List Char → Option (Rx × List Char)
  | 0, _ => none
  | Nat.succ fuel, cs =>
    match cs with
    | [] => some (.eps, [])
    | c :: _ =>
      if c = '|' ∨ c = ')' then some (.eps, cs)
      else
        match parseAtom fuel cs with
        | none => none
        | some (r, rest) =>
          match parseSeq fuel rest with
          | none => none
          | some (r2, rest2) => some (.cat r r2, rest2)

/-- Parse one atom with its postfix repetitions.  A repetition with nothing
to repeat, an unmatched parenthesis or a trailing backslash fails. -/
def parseAtom : Nat → List Char → Option (Rx × List Char)
  | 0, _ => none
  | Nat.succ fuel, cs =>
    match cs with
    | [] => none
    | ('(' :: rest) =>
      match parseAlt fuel rest with
      | some (r, (')' :: rest2)) => some (repLoop r rest2)
      | _ => none
    | (')' :: _) => none
    | ('|' :: _) => none
    | ('*' :: _) => none
    | ('+' :: _) => none
    | ('?' :: _) => none
    | ('\\' :: c :: rest) => some (repLoop (.lit c) rest)
    | ('\\' :: []) => none
    | ('.' :: rest) => some (repLoop .dot rest)
    | c :: rest => some (repLoop (.lit c) rest)

end

/-- Compile a pattern string; `none` when the pattern does not compile. -/
def compileRx (pat : String) : Option Rx :=
  match parseAlt (pat.data.length * 4 + 4) pat.data with
  | some (r, []) => some r
  | _ => none

/-- Case-insensitive unanchored test of a pattern string against a subject
string; an uncompilable pattern never matches (spec §4.3 failure semantics:
"treat that single rule as non-matching"). -/
def testPattern (pat s : String) : Bool :=
  match compileRx pat with
  | none => false
  | some r => searchRx r s.data

/-! ### Category rules and the category engine -/

/-- Shape of `CategoryRule` from `src/frontend/types/index.ts`. -/
structure CategoryRule where
  id : Nat
  category_name : String
  regex_pattern : String
  is_active : Bool
  created_at : String
  updated_at : String
deriving DecidableEq

/-- Insert a rule into a list sorted by ascending `id`. -/
def insertById (r : CategoryRule) : List CategoryRule → List CategoryRule
  | [] => [r]
  | x :: xs => if r.id ≤ x.id then r :: x :: xs else x :: insertById r xs

/-- Sort rules by ascending `id` (creation order, spec §4.3). -/
def sortById (rs : List CategoryRule) : List CategoryRule :=
  rs.foldr insertById []

/-- First active rule whose pattern matches the description, in list order. -/
def firstMatch (d : String) : List CategoryRule → Option String
  | [] => none
  | r :: rs =>
    if r.is_active && testPattern r.regex_pattern d then some r.category_name
    else firstMatch d rs

/-- Modelled from the spec (§4.3, Category Engine, absent from the source
tree): iterate rules by ascending `id`, consider only `is_active` rules,
apply each pattern case-insensitively to the description, return the
`category_name` of the first match, else the sentinel "Uncategorized". -/
def classify (d : String) (rules : List CategoryRule) : String :=
  (firstMatch d (sortById rules)).getD ("Uncategorized")

/-! ### Transactions -/

/-- Shape of `Transaction` from `src/frontend/types/index.ts`; the `number`
amounts are embedded as exact rationals, nullable fields as `Option`. -/
structure Transaction where
  id : Nat
  transaction_date : Option String
  post_date : Option String
  description : String
  category : String
  auto_category : String
  manual_category : Option String
  transaction_type : String
  amount : ℚ
  memo : Option String
  balance : Option ℚ
  check_number : Option String
  csv_format : String
deriving DecidableEq

/-- The date component of the identity key: prefer `transaction_date`, else
`post_date` (spec §9, documented choice). -/
def keyDate (t : Transaction) : Option String :=
  match t.transaction_date with
  | some d => some d
  | none => t.post_date

/-- Type of deduplication identity keys. -/
abbrev IdKey := Option String × String × ℚ × String × String

/-- Modelled from the spec (§4.4, Deduplicator, absent from the source
tree): the identity key is the ordered tuple (date, description, amount,
transaction type, csv format), never the surrogate id. -/
def identityKey (t : Transaction) : IdKey :=
  (keyDate t, t.description, t.amount, t.transaction_type, t.csv_format)

/-! ### CSV machinery -/

/-- Split a character list at every occurrence of a separator. -/
def splitOnCharAux (sep : Char) : List Char → List Char → List (List Char)
  | [], acc => [acc.reverse]
  | c :: rest, acc =>
    if c = sep then acc.reverse :: splitOnCharAux sep rest []
    else splitOnCharAux sep rest (c :: acc)

/-- Split a character list on a separator character. -/
def splitOnChar (sep : Char) (cs : List Char) : List (List Char) :=
  splitOnCharAux sep cs []

/-- Drop surrounding whitespace. -/
def trimChars (cs : List Char) : List Char :=
  ((cs.dropWhile Char.isWhitespace).reverse.dropWhile Char.isWhitespace).reverse

/-- Trim a string. -/
def trimStr (s : String) : String := String.mk (trimChars s.data)

/-- Normalize a column name: lowercase, then trim (case- and
whitespace-insensitive header comparison, spec §4.1). -/
def normCol (s : String) : String :=
  String.mk (trimChars (s.data.map Char.toLower))

/-- Digit string to a natural number; `none` if empty or non-digit. -/
def digitsToNat (cs : List Char) : Option Nat :=
  if cs ≠ [] ∧ cs.all Char.isDigit then
    some (cs.foldl (fun n c => n * 10 + (c.toNat - 48)) 0)
  else none

/-- Parse a signed decimal literal into an exact rational; `none` when the
text is not a decimal number (spec §4.2: amount is mandatory and a row with
an unparsable amount is rejected). -/
def parseDecimal (raw : String) : Option ℚ :=
  let cs := trimChars raw.data
  let signed : Bool × List Char :=
    match cs with
    | ('-' :: rest) => (true, rest)
    | ('+' :: rest) => (false, rest)
    | l => (false, l)
  let mag : Option ℚ :=
    match splitOnChar '.' signed.2 with
    | [w] => (digitsToNat w).map (fun n => (n : ℚ))
    | [w, f] =>
      match digitsToNat w, digitsToNat f with
      | some wn, some fn => some ((wn : ℚ) + (fn : ℚ) / ((10 : ℚ) ^ f.length))
      | _, _ => none
    | _ => none
  mag.map (fun m => if signed.1 then -m else m)

/-- The two known CSV schemas (spec §4.1). -/
inductive Schema where
  | schemaA : Schema
  | schemaB : Schema
deriving DecidableEq

/-- Tag recorded in `csv_format`. -/
def schemaTag : Schema → String
  | .schemaA => "schemaA"
  | .schemaB => "schemaB"

/-- Required (normalized) column names of Schema A. -/
def requiredA : List String :=
  ["transaction date", "post date", "description", "category", "type",
   "amount", "memo"]

/-- Required (normalized) column names of Schema B. -/
def requiredB : List String :=
  ["details", "posting date", "description", "amount", "type", "balance",
   "check or slip #"]

/-- Does the (raw) header cover the full required column set? -/
def coversHeader (req : List String) (header : List String) : Bool :=
  req.all (fun c => (header.map normCol).contains c)

/-- Error taxonomy of the upload operation (spec §7). -/
inductive UploadError where
  | OversizeError : UploadError
  | EmptyFileError : UploadError
  | UnrecognizedFormat : UploadError
deriving DecidableEq

/-- Modelled from the spec (§4.1, Format Detector, absent from the source
tree): test the schemas' required column sets in fixed priority order (A
before B) under case/whitespace-insensitive comparison; first full subset
wins, otherwise fail with `UnrecognizedFormat`. -/
def detectFormat (header : List String) : Except UploadError Schema :=
  if coversHeader requiredA header then .ok .schemaA
  else if coversHeader requiredB header then .ok .schemaB
  else .error .UnrecognizedFormat

/-- Value of the cell under the named (normalized) column. -/
def fieldAt (header : List String) (cells : List String) (name : String) :
    String :=
  match (header.map normCol).findIdx? (fun c => c == name) with
  | some i => trimStr (cells.getD i "")
  | none => ""

/-- Blank becomes `none`. -/
def optStr (s : String) : Option String :=
  if s = "" then none else some s

/-- Modelled from the spec (§4.2, Row Normalizer, absent from the source
tree): map one raw row into a canonical `Transaction`; an unparsable amount
rejects the row; a missing date becomes null unless the schema has no other
date column (Schema B), which is a row error; missing optional columns map
to null; `auto_category` is computed by the Category Engine and
`category = auto_category`, `manual_category` starts null.  The spec leaves
the date representation open, so a date cell is kept verbatim when
non-blank. -/
def normalizeRow (schema : Schema) (header : List String)
    (rules : List CategoryRule) (cells : List String) : Option Transaction :=
  match schema with
  | .schemaA =>
    match parseDecimal (fieldAt header cells ("amount")) with
    | none => none
    | some amt =>
      let desc := fieldAt header cells ("description")
      let ac := classify desc rules
      some
        { id := 0
          transaction_date := optStr (fieldAt header cells ("transaction date"))
          post_date := optStr (fieldAt header cells ("post date"))
          description := desc
          category := ac
          auto_category := ac
          manual_category := none
          transaction_type := fieldAt header cells ("type")
          amount := amt
          memo := optStr (fieldAt header cells ("memo"))
          balance := none
          check_number := none
          csv_format := schemaTag .schemaA }
  | .schemaB =>
    match parseDecimal (fieldAt header cells ("amount")),
          optStr (fieldAt header cells ("posting date")) with
    | some amt, some pd =>
      let desc := fieldAt header cells ("description")
      let ac := classify desc rules
      some
        { id := 0
          transaction_date := none
          post_date := some pd
          description := desc
          category := ac
          auto_category := ac
          manual_category := none
          transaction_type := fieldAt header cells ("type")
          amount := amt
          memo := none
          balance := parseDecimal (fieldAt header cells ("balance"))
          check_number := optStr (fieldAt header cells ("check or slip #"))
          csv_format := schemaTag .schemaB }
    | _, _ => none

/-- Cells of one CSV line. -/
def splitCells (line : String) : List String :=
  (splitOnChar ',' line.data).map String.mk

/-- Non-blank lines of the CSV text. -/
def csvLines (csv : String) : List String :=
  ((splitOnChar '\n' csv.data).map String.mk).filter
    (fun l => trimStr l != "")

/-- Result summary of an upload (spec §4.5). -/
structure UploadResult where
  format_detected : String
  total_rows : Nat
  saved_transactions : Nat
  duplicate_transactions : Nat
deriving DecidableEq

/-- Upload size limit: 16 MiB (spec §6), enforced before parsing. -/
def maxUploadBytes : Nat := 16777216

/-- Modelled from the spec (§4.5, Ingestion Orchestrator, absent from the
source tree), parsing stage: size check before any parsing, then empty-file
check, format detection from the header line, and per-row normalization
where row-level failures are skipped (every data row still counts toward
`total_rows`). -/
def ingestParse (csv : String) (rules : List CategoryRule) :
    Except UploadError (Schema × Nat × List Transaction) :=
  if csv.length > maxUploadBytes then .error .OversizeError
  else
    match csvLines csv with
    | [] => .error .EmptyFileError
    | headerLine :: dataLines =>
      if dataLines.isEmpty then .error .EmptyFileError
      else
        match detectFormat (splitCells headerLine) with
        | .error e => .error e
        | .ok schema =>
          .ok (schema, dataLines.length,
               dataLines.filterMap
                 (fun l => normalizeRow schema (splitCells headerLine) rules
                             (splitCells l)))

/-- Modelled from the spec (§4.5): full upload operation over a store of
previously seen identity keys; duplicates are filtered out, surviving rows'
keys are persisted, and the summary counts are returned.  A fatal error
leaves the store untouched. -/
def ingest (csv : String) (rules : List CategoryRule) (store : List IdKey) :
    Except UploadError (UploadResult × List IdKey) :=
  match ingestParse csv rules with
  | .error e => .error e
  | .ok (schema, total, parsed) =>
    let newTxns := parsed.filter (fun t => decide (identityKey t ∉ store))
    .ok ({ format_detected := schemaTag schema
           total_rows := total
           saved_transactions := newTxns.length
           duplicate_transactions := parsed.length - newTxns.length },
         store ++ newTxns.map identityKey)

/-! ### Re-categorization and rule CRUD -/

/-- Modelled from the spec (§4.3): recompute `auto_category`; update
`category` only when `manual_category` is null. -/
def recatTxn (rules : List CategoryRule) (t : Transaction) : Transaction :=
  let ac := classify t.description rules
  { t with
    auto_category := ac
    category := if t.manual_category.isSome then t.category else ac }

/-- Modelled from the spec (§4.3): bulk re-categorization over the full
transaction set, returning the updated transactions and the count of
transactions whose `category` value actually changed. -/
def recategorizeAll (rules : List CategoryRule) :
    List Transaction → List Transaction × Nat
  | [] => ([], 0)
  | t :: ts =>
    let t2 := recatTxn rules t
    let rest := recategorizeAll rules ts
    (t2 :: rest.1, (if t.category = t2.category then 0 else 1) + rest.2)

/-- Error raised when a rule's pattern does not compile (spec §7). -/
inductive RuleError where
  | InvalidRulePattern : RuleError
deriving DecidableEq

/-- Modelled from the spec (§3 invariant, rule persistence absent from the
source tree): creating a rule validates regex compilation before
persistence. -/
def createRule (store : List CategoryRule) (r : CategoryRule) :
    Except RuleError (List CategoryRule) :=
  match compileRx r.regex_pattern with
  | none => .error .InvalidRulePattern
  | some _ => .ok (store ++ [r])

/-- Modelled from the spec (§3 invariant): updating the rule with the given
id (fields sent by `handleUpdate` in `CategoryRules.tsx`) validates the new
pattern before persistence. -/
def updateRule (store : List CategoryRule) (i : Nat) (cat pat : String)
    (act : Bool) : Except RuleError (List CategoryRule) :=
  match compileRx pat with
  | none => .error .InvalidRulePattern
  | some _ =>
    .ok (store.map (fun x =>
      if x.id = i then
        { x with category_name := cat, regex_pattern := pat, is_active := act }
      else x))

/-! ### Stats -/

/-- Shape of `TransactionFilters` from `src/frontend/types/index.ts`. -/
structure TransactionFilters where
  type : Option String := none
  category : Option String := none
  start_date : Option String := none
  end_date : Option String := none
deriving DecidableEq

/-- Modelled from the spec (§4.6): optional type, category and date-range
conditions, AND-combined; the date filter uses the transaction's effective
date and a transaction with no date fails a date-range condition. -/
def matchesFilter (f : TransactionFilters) (t : Transaction) : Bool :=
  (match f.type with
   | none => true
   | some ty => t.transaction_type == ty) &&
  (match f.category with
   | none => true
   | some c => t.category == c) &&
  (match f.start_date with
   | none => true
   | some d => match keyDate t with
     | none => false
     | some td => decide (d ≤ td)) &&
  (match f.end_date with
   | none => true
   | some d => match keyDate t with
     | none => false
     | some td => decide (td ≤ d))

/-- One per-category stats entry (shape from `Stats` in
`src/frontend/types/index.ts`). -/
structure CategoryStat where
  category : String
  count : Nat
  total_amount : ℚ
deriving DecidableEq

/-- Date range of a stats result. -/
structure DateRange where
  earliest : Option String
  latest : Option String
deriving DecidableEq

/-- Shape of `Stats` from `src/frontend/types/index.ts`. -/
structure Stats where
  total_transactions : Nat
  date_range : DateRange
  categories : List CategoryStat
deriving DecidableEq

/-- First-occurrence deduplication of a list of strings. -/
def dedupStrs (l : List String) : List String :=
  l.foldl (fun acc x => if x ∈ acc then acc else acc ++ [x]) []

/-- Stats entry of one category over the filtered transactions. -/
def categoryStat (m : List Transaction) (c : String) : CategoryStat :=
  let inCat := m.filter (fun t => t.category == c)
  { category := c
    count := inCat.length
    total_amount := (inCat.map (fun t => t.amount)).sum }

/-- Modelled from the spec (§4.6, Stats Aggregator, absent from the source
tree): fold the transactions matching the filter into exact per-category
sums and counts. -/
def aggregate (f : TransactionFilters) (txns : List Transaction) : Stats :=
  let m := txns.filter (matchesFilter f)
  let dates := m.filterMap keyDate
  { total_transactions := m.length
    date_range :=
      { earliest := dates.foldl (fun acc d =>
          match acc with
          | none => some d
          | some x => some (if d < x then d else x)) none
        latest := dates.foldl (fun acc d =>
          match acc with
          | none => some d
          | some x => some (if x < d then d else x)) none }
    categories := (dedupStrs (m.map (fun t => t.category))).map
      (categoryStat m) }

/-! ### Stats panel totals (from `src/frontend/components/StatsPanel.tsx`) -/

/-- `totalSpending` of `StatsPanel.tsx` (lines 48-50): fold adding the
absolute value of each negative category total. -/
def totalSpending (s : Stats) : ℚ :=
  s.categories.foldl
    (fun sum c => sum + (if c.total_amount < 0 then |c.total_amount| else 0)) 0

/-- `totalIncome` of `StatsPanel.tsx` (lines 52-54): fold adding each
positive category total. -/
def totalIncome (s : Stats) : ℚ :=
  s.categories.foldl
    (fun sum c => sum + (if c.total_amount > 0 then c.total_amount else 0)) 0

/-- `netAmount` of `StatsPanel.tsx` (line 56). -/
def netAmount (s : Stats) : ℚ := totalIncome s - totalSpending s

/-! ### Concrete fixtures used by the theorems -/

/-- Rule id 1: pattern "foo", category "A" (spec §8 example). -/
def ruleA1 : CategoryRule :=
  { id := 1, category_name := "A", regex_pattern := "foo", is_active := true,
    created_at := "", updated_at := "" }

/-- Rule id 2: pattern "foo|bar", category "B" (spec §8 example). -/
def ruleB2 : CategoryRule :=
  { id := 2, category_name := "B", regex_pattern := "foo|bar",
    is_active := true, created_at := "", updated_at := "" }

/-- Inactive rule with the smallest id and a matching pattern. -/
def ruleZ0 : CategoryRule :=
  { id := 0, category_name := "Z", regex_pattern := "foo", is_active := false,
    created_at := "", updated_at := "" }

/-! ### Ordering and first-match lemmas -/

theorem insertById_perm (r : CategoryRule) (l : List CategoryRule) :
    List.Perm (insertById r l) (r :: l) := by
  induction l with
  | nil => exact List.Perm.refl _
  | cons x xs ih =>
    by_cases h : r.id ≤ x.id
    · simp [insertById, h]
    · simp only [insertById, if_neg h]
      exact (ih.cons x).trans (List.Perm.swap r x xs)

theorem sortById_perm (l : List CategoryRule) :
    List.Perm (sortById l) l := by
  induction l with
  | nil => exact List.Perm.refl _
  | cons x xs ih =>
    exact (insertById_perm x (sortById xs)).trans (ih.cons x)

theorem mem_sortById {a : CategoryRule} {l : List CategoryRule} :
    a ∈ sortById l ↔ a ∈ l :=
  (sortById_perm l).mem_iff

theorem pairwise_insertById {r : CategoryRule} {l : List CategoryRule}
    (h : l.Pairwise (fun a b => a.id ≤ b.id)) :
    (insertById r l).Pairwise (fun a b => a.id ≤ b.id) := by
  induction l with
  | nil => simp [insertById]
  | cons x xs ih =>
    rcases List.pairwise_cons.mp h with ⟨hx, hxs⟩
    by_cases hle : r.id ≤ x.id
    · simp only [insertById, if_pos hle]
      refine List.pairwise_cons.mpr ⟨?_, h⟩
      intro b hb
      rcases List.mem_cons.mp hb with rfl | hb'
      · exact hle
      · exact le_trans hle (hx b hb')
    · simp only [insertById, if_neg hle]
      refine List.pairwise_cons.mpr ⟨?_, ih hxs⟩
      intro b hb
      rcases List.mem_cons.mp ((insertById_perm r xs).mem_iff.mp hb) with
        rfl | hb'
      · exact le_of_lt (lt_of_not_le hle)
      · exact hx b hb'

theorem sortById_sorted (l : List CategoryRule) :
    (sortById l).Pairwise (fun a b => a.id ≤ b.id) := by
  induction l with
  | nil => simp [sortById]
  | cons x xs ih => exact pairwise_insertById ih

theorem firstMatch_eq_none {d : String} {l : List CategoryRule}
    (h : ∀ r ∈ l,
      ¬(r.is_active = true ∧ testPattern r.regex_pattern d = true)) :
    firstMatch d l = none := by
  induction l with
  | nil => rfl
  | cons x xs ih =>
    have hx := h x (List.mem_cons_self x xs)
    have hcond : (x.is_active && testPattern x.regex_pattern d) = false := by
      cases h1 : x.is_active <;> cases h2 : testPattern x.regex_pattern d <;>
        simp_all
    simp only [firstMatch, hcond, Bool.false_eq_true, if_false]
    exact ih (fun r hr => h r (List.mem_cons_of_mem x hr))

theorem firstMatch_some {d c : String} {l : List CategoryRule}
    (h : firstMatch d l = some c) :
    ∃ r ∈ l, r.is_active = true ∧ testPattern r.regex_pattern d = true ∧
      r.category_name = c := by
  induction l with
  | nil => simp [firstMatch] at h
  | cons x xs ih =>
    by_cases hcond : (x.is_active && testPattern x.regex_pattern d) = true
    · refine ⟨x, List.mem_cons_self x xs, ?_, ?_, ?_⟩
      · exact (Bool.and_eq_true _ _).mp hcond |>.1
      · exact (Bool.and_eq_true _ _).mp hcond |>.2
      · simp only [firstMatch, hcond, if_true] at h
        exact Option.some.inj h
    · simp only [firstMatch, hcond, if_false] at h
      rcases ih h with ⟨r, hr, h1, h2, h3⟩
      exact ⟨r, List.mem_cons_of_mem x hr, h1, h2, h3⟩

theorem firstMatch_first {d : String} {l : List CategoryRule}
    {r : CategoryRule}
    (hsort : l.Pairwise (fun a b => a.id ≤ b.id))
    (hdist : l.Pairwise (fun a b => a.id ≠ b.id))
    (hmem : r ∈ l) (hact : r.is_active = true)
    (htest : testPattern r.regex_pattern d = true)
    (hfirst : ∀ rr ∈ l, rr.id < r.id →
      ¬(rr.is_active = true ∧ testPattern rr.regex_pattern d = true)) :
    firstMatch d l = some r.category_name := by
  induction l with
  | nil => cases hmem
  | cons x xs ih =>
    rcases List.mem_cons.mp hmem with rfl | hmem'
    · simp [firstMatch, hact, htest]
    · have hxle : x.id ≤ r.id := (List.pairwise_cons.mp hsort).1 r hmem'
      have hxne : x.id ≠ r.id := (List.pairwise_cons.mp hdist).1 r hmem'
      have hxnot := hfirst x (List.mem_cons_self x xs)
        (lt_of_le_of_ne hxle hxne)
      have hcond : (x.is_active && testPattern x.regex_pattern d) = false := by
        cases h1 : x.is_active <;> cases h2 : testPattern x.regex_pattern d <;>
          simp_all
      simp only [firstMatch, hcond, Bool.false_eq_true, if_false]
      exact ih (List.pairwise_cons.mp hsort).2 (List.pairwise_cons.mp hdist).2
        hmem'
        (fun rr hrr hlt => hfirst rr (List.mem_cons_of_mem x hrr) hlt)

/-! ### Claim theorems: category engine -/

/-- C1: `classify` evaluates only rules with `is_active = true`, iterates
them in ascending `id` order, matches each `regex_pattern` case-insensitively
against the description, and returns the `category_name` of the first
matching rule: whenever `r` is an active matching rule and every rule with a
smaller id is inactive or non-matching, `classify` returns `r`'s category.
In particular, with active rules id 1 ("foo" → "A") and id 2
("foo|bar" → "B"), "foobar" classifies as "A" — also when the rule list is
given out of order, in a different case, or behind an inactive
smaller-id rule. -/
theorem classify_first_match_wins :
    (∀ (d : String) (rules : List CategoryRule) (r : CategoryRule),
        rules.Pairwise (fun a b => a.id ≠ b.id) →
        r ∈ rules → r.is_active = true →
        testPattern r.regex_pattern d = true →
        (∀ rr ∈ rules, rr.id < r.id →
          ¬(rr.is_active = true ∧ testPattern rr.regex_pattern d = true)) →
        classify d rules = r.category_name)
    ∧ classify ("foobar") [ruleA1, ruleB2] = "A"
    ∧ classify ("foobar") [ruleB2, ruleA1] = "A"
    ∧ classify ("FOOBAR") [ruleB2, ruleA1] = "A"
    ∧ classify ("foobar") [ruleZ0, ruleA1, ruleB2] = "A" := by
  refine ⟨?_, by decide, by decide, by decide, by decide⟩
  intro d rules r hdist hmem hact htest hfirst
  have hdist' : (sortById rules).Pairwise (fun a b => a.id ≠ b.id) :=
    (((sortById_perm rules).pairwise_iff (fun h => Ne.symm h))).mpr hdist
  have hmain := firstMatch_first (d := d) (sortById_sorted rules) hdist'
    (mem_sortById.mpr hmem) hact htest
    (fun rr hrr hlt => hfirst rr (mem_sortById.mp hrr) hlt)
  simp only [classify, hmain, Option.getD_some]

/-- Witness for C1: the first-match characterization applied to the spec's
concrete example. -/
theorem classify_first_match_wins_witness :
    classify ("foobar") [ruleB2, ruleA1] = ruleA1.category_name :=
  classify_first_match_wins.1 ("foobar") [ruleB2, ruleA1] ruleA1
    (by decide) (by decide) (by decide) (by decide) (by decide)

/-- C5: `classify` is total and returns the sentinel "Uncategorized" when
the rule set is empty or no active rule matches; otherwise its result is the
category name of some active rule of the set.  It returns a plain `String`
(never null) and is a total function (never an exception). -/
theorem classify_total :
    (∀ d : String, classify d [] = "Uncategorized")
    ∧ (∀ (d : String) (rules : List CategoryRule),
        (∀ r ∈ rules,
          ¬(r.is_active = true ∧ testPattern r.regex_pattern d = true)) →
        classify d rules = "Uncategorized")
    ∧ (∀ (d : String) (rules : List CategoryRule),
        classify d rules = "Uncategorized" ∨
          ∃ r ∈ rules, r.is_active = true ∧
            classify d rules = r.category_name) := by
  refine ⟨fun d => rfl, ?_, ?_⟩
  · intro d rules h
    have hnone := firstMatch_eq_none
      (fun r hr => h r (mem_sortById.mp hr)) (d := d)
    simp only [classify, hnone, Option.getD_none]
  · intro d rules
    cases h : firstMatch d (sortById rules) with
    | none =>
      left
      simp only [classify, h, Option.getD_none]
    | some c =>
      right
      rcases firstMatch_some h with ⟨r, hr, ha, _, hc⟩
      refine ⟨r, mem_sortById.mp hr, ha, ?_⟩
      simp only [classify, h, Option.getD_some]
      exact hc.symm

/-- Witness for C5: no active rule of `[ruleZ0, ruleA1]` matches "zzz", so
it classifies as "Uncategorized". -/
theorem classify_total_witness :
    classify ("zzz") [ruleZ0, ruleA1] = "Uncategorized" :=
  classify_total.2.1 ("zzz") [ruleZ0, ruleA1] (by decide)

/-! ### Claim theorems: deduplication key -/

/-- A grocery transaction carrying both dates. -/
def tG1 : Transaction :=
  { id := 1, transaction_date := some "2024-01-01",
    post_date := some "2024-01-02", description := "g1",
    category := "Groceries", auto_category := "Groceries",
    manual_category := none, transaction_type := "debit", amount := -25/2,
    memo := none, balance := none, check_number := none,
    csv_format := "schemaA" }

/-- A second grocery transaction. -/
def tG2 : Transaction :=
  { tG1 with id := 2, description := "g2", amount := -29/4 }

/-- An income transaction. -/
def tI3 : Transaction :=
  { tG1 with
    id := 3
    description := "pay"
    category := "Income"
    auto_category := "Income"
    amount := 100 }

/-- A transaction with a manual category override whose description an
active rule would re-classify. -/
def tManual : Transaction :=
  { tG1 with
    id := 4
    description := "foo stuff"
    category := "Custom"
    auto_category := "Old"
    manual_category := some "Custom" }

/-- C3: the deduplication identity key is exactly the ordered tuple
(transaction_date if present, else post_date; description; amount;
transaction_type; csv_format), preferring `transaction_date` when both dates
are present, and it is unchanged under any change of the surrogate `id` (and
of every other non-key field). -/
theorem identityKey_spec :
    (∀ (t : Transaction) (i : Nat) (c a : String) (m mm ck : Option String)
        (b : Option ℚ),
        identityKey
          { t with id := i, category := c, auto_category := a,
                   manual_category := m, memo := mm, balance := b,
                   check_number := ck } = identityKey t)
    ∧ (∀ (t : Transaction) (d : String), t.transaction_date = some d →
        (identityKey t).1 = some d)
    ∧ (∀ t : Transaction, t.transaction_date = none →
        (identityKey t).1 = t.post_date)
    ∧ (∀ t : Transaction,
        identityKey t = (keyDate t, t.description, t.amount,
          t.transaction_type, t.csv_format)) := by
  refine ⟨fun t i c a m mm ck b => rfl, ?_, ?_, fun t => rfl⟩
  · intro t d h
    simp [identityKey, keyDate, h]
  · intro t h
    simp [identityKey, keyDate, h]

/-- Witness for C3: the key of a transaction with both dates present starts
with its `transaction_date`, not its `post_date`. -/
theorem identityKey_spec_witness :
    (identityKey tG1).1 = some "2024-01-01" :=
  identityKey_spec.2.1 tG1 "2024-01-01" (by decide)

/-! ### Claim theorems: re-categorization -/

/-- C4: bulk re-categorization maps every transaction through `recatTxn`;
a transaction with a non-null `manual_category` keeps its `category`
unchanged while only `auto_category` is recomputed by `classify`; and the
returned count is the number of transactions whose `category` value actually
changed. -/
theorem recategorize_frame :
    ∀ (rules : List CategoryRule) (txns : List Transaction),
      (recategorizeAll rules txns).1 = txns.map (recatTxn rules)
      ∧ (∀ t ∈ txns, t.manual_category ≠ none →
          (recatTxn rules t).category = t.category)
      ∧ (∀ t : Transaction,
          (recatTxn rules t).auto_category = classify t.description rules)
      ∧ (recategorizeAll rules txns).2 =
          txns.countP
            (fun t => t.category != (recatTxn rules t).category) := by
  intro rules txns
  refine ⟨?_, ?_, fun t => rfl, ?_⟩
  · induction txns with
    | nil => rfl
    | cons t ts ih => simp [recategorizeAll, ih]
  · intro t _ hm
    cases h : t.manual_category with
    | none => exact absurd h hm
    | some v => simp [recatTxn, h]
  · induction txns with
    | nil => rfl
    | cons t ts ih =>
      simp only [recategorizeAll, List.countP_cons, ih]
      by_cases h : t.category = (recatTxn rules t).category
      · simp [h]
      · simp [h, Nat.add_comm]

/-- Witness for C4: a transaction with `manual_category = "Custom"` keeps
its category even though the active rule would classify its description
differently. -/
theorem recategorize_frame_witness :
    (recatTxn [ruleA1] tManual).category = tManual.category :=
  (recategorize_frame [ruleA1] [tManual]).2.1 tManual (by decide) (by decide)

/-! ### Claim theorems: rule pattern validation -/

/-- A rule whose pattern does not compile (unmatched parenthesis). -/
def badRule : CategoryRule :=
  { id := 7, category_name := "Bad", regex_pattern := "(", is_active := true,
    created_at := "", updated_at := "" }

/-- C7: creating or updating a rule with a pattern that fails to compile is
rejected with `InvalidRulePattern` before persistence; both operations
preserve the invariant that every stored rule's pattern compiles, so
`classify` never encounters an uncompilable pattern (and even if it did, an
uncompilable pattern never matches). -/
theorem rule_pattern_validation :
    (∀ (store : List CategoryRule) (r : CategoryRule),
        compileRx r.regex_pattern = none →
        createRule store r = .error .InvalidRulePattern)
    ∧ (∀ (store : List CategoryRule) (i : Nat) (cat pat : String)
          (act : Bool),
        compileRx pat = none →
        updateRule store i cat pat act = .error .InvalidRulePattern)
    ∧ (∀ (store store' : List CategoryRule) (r : CategoryRule),
        (∀ x ∈ store, (compileRx x.regex_pattern).isSome = true) →
        createRule store r = .ok store' →
        ∀ x ∈ store', (compileRx x.regex_pattern).isSome = true)
    ∧ (∀ (store store' : List CategoryRule) (i : Nat) (cat pat : String)
          (act : Bool),
        (∀ x ∈ store, (compileRx x.regex_pattern).isSome = true) →
        updateRule store i cat pat act = .ok store' →
        ∀ x ∈ store', (compileRx x.regex_pattern).isSome = true)
    ∧ compileRx ("(") = none
    ∧ (∀ pat d : String, compileRx pat = none →
        testPattern pat d = false) := by
  refine ⟨?_, ?_, ?_, ?_, by decide, ?_⟩
  · intro store r h
    simp [createRule, h]
  · intro store i cat pat act h
    simp [updateRule, h]
  · intro store store' r hinv hok x hx
    cases hc : compileRx r.regex_pattern with
    | none => simp [createRule, hc] at hok
    | some rx =>
      simp only [createRule, hc] at hok
      injection hok with he
      subst he
      rcases List.mem_append.mp hx with h1 | h1
      · exact hinv x h1
      · have hxr : x = r := by simpa using h1
        subst hxr
        simp [hc]
  · intro store store' i cat pat act hinv hok x hx
    cases hc : compileRx pat with
    | none => simp [updateRule, hc] at hok
    | some rx =>
      simp only [updateRule, hc] at hok
      injection hok with he
      subst he
      rcases List.mem_map.mp hx with ⟨y, hy, hxy⟩
      by_cases hid : y.id = i
      · simp only [hid, if_true] at hxy
        rw [← hxy]
        simp [hc]
      · simp only [hid, if_false] at hxy
        rw [← hxy]
        exact hinv y hy
  · intro pat d h
    simp [testPattern, h]

/-- Witness for C7: creating a rule with the uncompilable pattern "(" on an
empty store is rejected. -/
theorem rule_pattern_validation_witness :
    createRule [] badRule = .error .InvalidRulePattern :=
  rule_pattern_validation.1 [] badRule (by decide)

/-- Decidable equality for `Except`, used to evaluate concrete runs of the
fallible operations. -/
instance instDecEqExcept {ε α : Type} [DecidableEq ε] [DecidableEq α] :
    DecidableEq (Except ε α) := fun a b =>
  match a, b with
  | .error e, .error f =>
    if h : e = f then .isTrue (h ▸ rfl)
    else .isFalse (fun hc => h (Except.error.inj hc))
  | .error _, .ok _ => .isFalse (fun hc => Except.noConfusion hc)
  | .ok _, .error _ => .isFalse (fun hc => Except.noConfusion hc)
  | .ok x, .ok y =>
    if h : x = y then .isTrue (h ▸ rfl)
    else .isFalse (fun hc => h (Except.ok.inj hc))

/-! ### Claim theorems: format detection -/

/-- C6: format detection depends only on the case/whitespace-normalized
header, tests Schema A's required column set before Schema B's, returns the
first schema whose full required column set is covered, and fails with
`UnrecognizedFormat` when neither set is covered; concrete instances
exercise case/whitespace variations, a header covering both schemas (A
wins by priority), and a header with a missing required column. -/
theorem detect_format_spec :
    (∀ h1 h2 : List String, h1.map normCol = h2.map normCol →
        detectFormat h1 = detectFormat h2)
    ∧ (∀ header : List String, coversHeader requiredA header = true →
        detectFormat header = .ok .schemaA)
    ∧ (∀ header : List String, coversHeader requiredA header = false →
        coversHeader requiredB header = true →
        detectFormat header = .ok .schemaB)
    ∧ (∀ header : List String, coversHeader requiredA header = false →
        coversHeader requiredB header = false →
        detectFormat header = .error .UnrecognizedFormat)
    ∧ detectFormat (splitCells
        (" TRANSACTION DATE ,post date,DESCRIPTION,Category,Type,Amount,Memo"))
        = .ok .schemaA
    ∧ detectFormat (splitCells
        ("Details,Posting Date,Description,Amount,Type,Balance,Check or Slip #"))
        = .ok .schemaB
    ∧ detectFormat (splitCells
        ("Details,Posting Date,Transaction Date,Post Date,Description,Category,Type,Amount,Memo,Balance,Check or Slip #"))
        = .ok .schemaA
    ∧ detectFormat (splitCells
        ("Transaction Date,Description,Category,Type,Amount,Memo"))
        = .error .UnrecognizedFormat := by
  refine ⟨?_, ?_, ?_, ?_, by decide, by decide, by decide, by decide⟩
  · intro h1 h2 he
    simp only [detectFormat, coversHeader, he]
  · intro header h
    simp [detectFormat, h]
  · intro header h1 h2
    simp [detectFormat, h1, h2]
  · intro header h1 h2
    simp [detectFormat, h1, h2]

/-- Witness for C6: the subset rule applied to a concrete Schema-B
header. -/
theorem detect_format_spec_witness :
    detectFormat (splitCells
      ("details,POSTING DATE,description,amount,type,balance,check or slip #"))
      = .ok .schemaB :=
  detect_format_spec.2.2.1 (splitCells
    ("details,POSTING DATE,description,amount,type,balance,check or slip #"))
    (by decide) (by decide)

/-! ### Claim theorems: upload size limit -/

/-- C9: any upload whose payload exceeds 16 MiB is rejected with
`OversizeError` before any parsing, and the store of persisted identity keys
is untouched (the operation returns only the error). -/
theorem oversize_rejected :
    ∀ (csv : String) (rules : List CategoryRule) (store : List IdKey),
      csv.length > maxUploadBytes →
      ingest csv rules store = .error .OversizeError := by
  intro csv rules store h
  simp [ingest, ingestParse, h]

/-- A payload one byte over the 16 MiB limit. -/
def bigStr : String := String.mk (List.replicate (maxUploadBytes + 1) 'a')

/-- Witness for C9: the oversized payload is rejected. -/
theorem oversize_rejected_witness :
    ingest bigStr [] [] = .error .OversizeError :=
  oversize_rejected bigStr [] [] (by
    show (List.replicate (maxUploadBytes + 1) 'a').length > maxUploadBytes
    rw [List.length_replicate]
    exact Nat.lt_succ_self _)

/-! ### Claim theorems: re-upload idempotence -/

theorem ingestParse_ok_le {csv : String} {rules : List CategoryRule}
    {schema : Schema} {total : Nat} {parsed : List Transaction}
    (hp : ingestParse csv rules = .ok (schema, total, parsed)) :
    parsed.length ≤ total := by
  unfold ingestParse at hp
  split at hp
  · exact absurd hp (by simp)
  · split at hp
    · exact absurd hp (by simp)
    · split at hp
      · exact absurd hp (by simp)
      · split at hp
        · exact absurd hp (by simp)
        · injection hp with h1
          have h2 := congrArg (fun p => p.2.1) h1
          have h3 := congrArg (fun p => p.2.2) h1
          simp only at h2 h3
          rw [← h2, ← h3]
          exact List.length_filterMap_le _ _

/-- C2 (amended): after a successful upload, a second upload of the
byte-identical payload succeeds, persists no new identity key, and reports
`saved_transactions = 0` and `duplicate_transactions` equal to the number of
successfully normalized rows of that upload — which is at most `total_rows`,
with equality exactly when no row was skipped. -/
theorem reupload_idempotent :
    ∀ (csv : String) (rules : List CategoryRule) (store : List IdKey)
      (r1 : UploadResult) (s1 : List IdKey),
      ingest csv rules store = .ok (r1, s1) →
      ∃ (schema : Schema) (total : Nat) (parsed : List Transaction),
        ingestParse csv rules = .ok (schema, total, parsed) ∧
        parsed.length ≤ total ∧
        ingest csv rules s1 =
          .ok ({ format_detected := schemaTag schema
                 total_rows := total
                 saved_transactions := 0
                 duplicate_transactions := parsed.length }, s1) := by
  intro csv rules store r1 s1 h
  cases hp : ingestParse csv rules with
  | error e =>
    simp only [ingest, hp] at h
    exact Except.noConfusion h
  | ok trip =>
    obtain ⟨schema, total, parsed⟩ := trip
    simp only [ingest, hp] at h
    injection h with h1
    have hs1 : s1 = store ++ (parsed.filter
        (fun t => decide (identityKey t ∉ store))).map identityKey :=
      (congrArg Prod.snd h1).symm
    refine ⟨schema, total, parsed, rfl, ingestParse_ok_le hp, ?_⟩
    simp only [ingest, hp]
    have hnil : parsed.filter (fun t => decide (identityKey t ∉ s1)) = [] := by
      rw [List.filter_eq_nil_iff]
      intro t ht
      have hmem : identityKey t ∈ s1 := by
        rw [hs1]
        by_cases hm : identityKey t ∈ store
        · exact List.mem_append.mpr (Or.inl hm)
        · refine List.mem_append.mpr (Or.inr ?_)
          refine List.mem_map.mpr ⟨t, ?_, rfl⟩
          exact List.mem_filter.mpr ⟨ht, by simpa using hm⟩
      simp [hmem]
    rw [hnil]
    simp

/-- A Schema-A CSV whose three data rows all parse. -/
def csvGood : String :=
  "Transaction Date,Post Date,Description,Category,Type,Amount,Memo\n01/01/2024,01/02/2024,STORE A,,debit,-1.00,\n01/03/2024,01/04/2024,STORE B,,debit,-2.50,\n01/05/2024,01/06/2024,STORE C,,debit,-3.00,\n"

/-- Summary returned by the first upload of `csvGood` into an empty store. -/
def resGood : UploadResult :=
  { format_detected := "schemaA", total_rows := 3, saved_transactions := 3,
    duplicate_transactions := 0 }

/-- Identity keys persisted by the first upload of `csvGood`. -/
def storeGood : List IdKey :=
  [(some "01/01/2024", "STORE A", (-1 : ℚ), "debit", "schemaA"),
   (some "01/03/2024", "STORE B", (-5/2 : ℚ), "debit", "schemaA"),
   (some "01/05/2024", "STORE C", (-3 : ℚ), "debit", "schemaA")]

/-- Witness for C2: the idempotence theorem applied to a concrete first
upload of `csvGood`. -/
theorem reupload_idempotent_witness :
    ∃ (schema : Schema) (total : Nat) (parsed : List Transaction),
      ingestParse csvGood [] = .ok (schema, total, parsed) ∧
      parsed.length ≤ total ∧
      ingest csvGood [] storeGood =
        .ok ({ format_detected := schemaTag schema
               total_rows := total
               saved_transactions := 0
               duplicate_transactions := parsed.length }, storeGood) :=
  reupload_idempotent csvGood [] [] resGood storeGood (by decide)

/-- Same CSV but with an unparsable amount in the middle row, which is
skipped (counted in `total_rows`, absent from the parsed rows). -/
def csvSkip : String :=
  "Transaction Date,Post Date,Description,Category,Type,Amount,Memo\n01/01/2024,01/02/2024,STORE A,,debit,-1.00,\n01/03/2024,01/04/2024,STORE B,,debit,abc,\n01/05/2024,01/06/2024,STORE C,,debit,-3.00,\n"

/-- Keys persisted by the first upload of `csvSkip` into an empty store. -/
def storeSkip : List IdKey :=
  match ingest csvSkip [] [] with
  | .ok p => p.2
  | .error _ => []

/-- Counterexample for C2 as stated: both uploads of the byte-identical
`csvSkip` succeed, yet the second reports `duplicate_transactions = 2`
while its `total_rows = 3`, because the row with the unparsable amount is
skipped but still counted in `total_rows`. -/
theorem reupload_counterexample :
    (ingest csvSkip [] []).toOption.map
        (fun p => (p.1.saved_transactions, p.1.duplicate_transactions,
                   p.1.total_rows)) = some (2, 0, 3)
    ∧ (ingest csvSkip [] storeSkip).toOption.map
        (fun p => (p.1.saved_transactions, p.1.duplicate_transactions,
                   p.1.total_rows)) = some (0, 2, 3)
    ∧ (2 : Nat) ≠ 3 :=
  ⟨by decide, by decide, by decide⟩

/-! ### Claim theorems: stats aggregation -/

/-- C8: for every filter, the aggregation's `total_transactions` is the
count of transactions matching the filter, and every per-category entry
carries the exact count and the exact rational sum of the matching
transactions' amounts; concretely, amounts -12.50 and -7.25 in "Groceries"
and +100.00 in "Income" aggregate to exactly -79/4 and 100. -/
theorem aggregate_exact :
    (∀ (f : TransactionFilters) (txns : List Transaction),
        (aggregate f txns).total_transactions =
          (txns.filter (matchesFilter f)).length)
    ∧ (∀ (f : TransactionFilters) (txns : List Transaction),
        ∀ e ∈ (aggregate f txns).categories,
          e.count = ((txns.filter (matchesFilter f)).filter
            (fun t => t.category == e.category)).length
          ∧ e.total_amount = (((txns.filter (matchesFilter f)).filter
            (fun t => t.category == e.category)).map
              (fun t => t.amount)).sum)
    ∧ (aggregate {} [tG1, tG2, tI3]).total_transactions = 3
    ∧ (aggregate {} [tG1, tG2, tI3]).categories =
        [{ category := "Groceries", count := 2, total_amount := -79/4 },
         { category := "Income", count := 1, total_amount := 100 }] := by
  refine ⟨fun f txns => rfl, ?_, by decide, by decide⟩
  intro f txns e he
  simp only [aggregate] at he
  rcases List.mem_map.mp he with ⟨c, _, rfl⟩
  exact ⟨rfl, rfl⟩

/-- Witness for C8: the per-entry exactness applied to the "Groceries"
entry of the concrete aggregation. -/
theorem aggregate_exact_witness :
    (({ category := "Groceries", count := 2, total_amount := -79/4 } :
        CategoryStat)).count =
      (([tG1, tG2, tI3].filter (matchesFilter {})).filter
        (fun t => t.category ==
          (({ category := "Groceries", count := 2, total_amount := -79/4 } :
            CategoryStat)).category)).length
    ∧ (({ category := "Groceries", count := 2, total_amount := -79/4 } :
        CategoryStat)).total_amount =
      ((([tG1, tG2, tI3].filter (matchesFilter {})).filter
        (fun t => t.category ==
          (({ category := "Groceries", count := 2, total_amount := -79/4 } :
            CategoryStat)).category)).map (fun t => t.amount)).sum :=
  aggregate_exact.2.1 {} [tG1, tG2, tI3]
    { category := "Groceries", count := 2, total_amount := -79/4 }
    (by decide)

/-! ### Claim theorems: stats panel totals -/

theorem foldl_add_eq_sum (g : CategoryStat → ℚ) (l : List CategoryStat)
    (a : ℚ) : l.foldl (fun sum c => sum + g c) a = a + (l.map g).sum := by
  induction l generalizing a with
  | nil => simp
  | cons x xs ih => simp [ih, add_assoc]

/-- C10: the net amount displayed by the stats panel equals the sum over
all categories of `total_amount`, because `totalIncome` adds
`max 0 total_amount` and `totalSpending` adds `max 0 (-total_amount)` per
category. -/
theorem netAmount_eq_sum :
    ∀ s : Stats,
      totalIncome s = (s.categories.map (fun c => max 0 c.total_amount)).sum
      ∧ totalSpending s =
          (s.categories.map (fun c => max 0 (-c.total_amount))).sum
      ∧ netAmount s = (s.categories.map (fun c => c.total_amount)).sum := by
  intro s
  have hif1 : ∀ q : ℚ, (if q > 0 then q else 0) = max 0 q := by
    intro q
    rcases le_or_lt q 0 with h | h
    · rw [if_neg (not_lt.mpr h), max_eq_left h]
    · rw [if_pos h, max_eq_right (le_of_lt h)]
  have hif2 : ∀ q : ℚ, (if q < 0 then |q| else 0) = max 0 (-q) := by
    intro q
    rcases lt_or_le q 0 with h | h
    · rw [if_pos h, abs_of_neg h, max_eq_right (le_of_lt (neg_pos.mpr h))]
    · rw [if_neg (not_lt.mpr h), max_eq_left (neg_nonpos.mpr h)]
  have hinc : totalIncome s =
      (s.categories.map (fun c => max 0 c.total_amount)).sum := by
    unfold totalIncome
    rw [foldl_add_eq_sum (fun c =>
      if c.total_amount > 0 then c.total_amount else 0), zero_add]
    congr 1
    exact List.map_congr_left (fun c _ => hif1 c.total_amount)
  have hspend : totalSpending s =
      (s.categories.map (fun c => max 0 (-c.total_amount))).sum := by
    unfold totalSpending
    rw [foldl_add_eq_sum (fun c =>
      if c.total_amount < 0 then |c.total_amount| else 0), zero_add]
    congr 1
    exact List.map_congr_left (fun c _ => hif2 c.total_amount)
  have key : ∀ l : List CategoryStat,
      (l.map (fun c => max 0 c.total_amount)).sum -
        (l.map (fun c => max 0 (-c.total_amount))).sum =
        (l.map (fun c => c.total_amount)).sum := by
    intro l
    induction l with
    | nil => simp
    | cons x xs ih =>
      simp only [List.map_cons, List.sum_cons]
      have hx : max 0 x.total_amount - max 0 (-x.total_amount) =
          x.total_amount := by
        rcases le_total x.total_amount 0 with h | h
        · rw [max_eq_left h, max_eq_right (neg_nonneg.mpr h)]
          ring
        · rw [max_eq_right h, max_eq_left (neg_nonpos.mpr h)]
          ring
      linarith [hx, ih]
  exact ⟨hinc, hspend, by rw [netAmount, hinc, hspend]; exact key _⟩

end Budget
